import Mathlib

/-!
Shallow embedding of `eventlistener.hpp` (revision 0.3) from the
EventListener repository: a global registry of listener records
(`std::vector<SListener> g_events`) guarded by one non-reentrant
`std::mutex g_events_mutex`, with registration (`CreateEventListener`),
three deletion variants (`DeleteEventListener` by id,
`DeleteEventListeners` by owner address, `DeleteEventListeners` by event
name), a dispatch helper (`CallEvent`) and two push variants (`PushEvent`).

Modelling conventions:
* `void*` owner addresses and `const char*` event-name pointers become
  `Nat` (0 is `nullptr` / `NULL`); the character sequence a name pointer
  points at is given by an environment `env : Nat → Nat` mapping the
  pointer to an abstract contents value (the code only ever constructs a
  `std::string` from the pointer and never inspects it otherwise, so an
  abstract value with decidable equality is enough).
* Callback objects (`EventFunction*`, stored type-erased as `void**`)
  become abstract handles `fn : Nat`; the environment `cbFaults : Nat → Bool`
  says whether invoking that callback throws a `std::exception` (the only
  kind the `catch` in `CallEvent` handles).
* The C++ `int` id counter and `int` counts are modelled as `Nat`
  (signed overflow is undefined behaviour and outside every claim).
* Each operation takes a `locked : Bool` flag modelling whether the
  calling thread already holds `g_events_mutex`.  `std::lock_guard` on a
  `std::mutex` the thread already owns is undefined behaviour that in
  practice blocks forever, so an operation entered with `locked = true`
  yields `none` (deadlock: the operation never returns).  A `some` result
  means the operation ran to completion and the `lock_guard` released the
  mutex on exit.
* Observable behaviour of a dispatch is a trace: callback invocations
  (with the `SEvent` value passed) interleaved with the
  `EventListenerLog` / `EventListenerError` diagnostic calls the source
  makes.  The fixed message strings of the source are represented by the
  constructors of `Diag`.
-/

namespace EventListener

/-- `const char*` modelled as an address; `0` is `NULL`. -/
abbrev CPtr := Nat

/-- `void*` modelled as an address; `0` is `nullptr`, the global/no-owner
sentinel. -/
abbrev Ptr := Nat

/-- `struct SEvent { int id; uintptr_t address; std::string name; }` —
the event-context value passed to every invoked callback.  `name` holds
the abstract contents value of the pushed name pointer (the code builds
`std::string(eventName)`). -/
structure SEvent where
  id : Nat
  address : Ptr
  name : Nat
deriving DecidableEq, Repr

/-- `struct SListener { int id; void *address; const char *name; void **fn; }`
— one listener record of the registry. -/
structure SListener where
  id : Nat
  address : Ptr
  name : CPtr
  fn : Nat
deriving DecidableEq, Repr

/-- The fixed diagnostic messages the source passes to `EventListenerLog`
and `EventListenerError`; each constructor stands for one string literal
of `eventlistener.hpp`. -/
inductive Diag where
  /-- "Calling listener event." -/
  | callingListenerEvent
  /-- "Successfully called listener event." -/
  | successfullyCalledListenerEvent
  /-- "WARNING: Listener event threw an exception." -/
  | warnListenerThrew
  /-- "Scanning listeners." -/
  | scanningListeners
  /-- "Checking listener." -/
  | checkingListener
  /-- "Calling listener function." -/
  | callingListenerFunction
deriving DecidableEq, Repr

/-- One observable step of a dispatch: a callback invocation (with the
`SEvent` it receives), an `EventListenerLog` call, or an
`EventListenerError` call. -/
inductive TraceItem where
  | invoke (fn : Nat) (ev : SEvent)
  | log (d : Diag)
  | err (d : Diag)
deriving DecidableEq, Repr

/-- Is a trace item a callback invocation? -/
def TraceItem.isInvoke : TraceItem → Bool
  | .invoke _ _ => true
  | _ => false

/-- Is a trace item an `EventListenerError` call? -/
def TraceItem.isErr : TraceItem → Bool
  | .err _ => true
  | _ => false

/-- The subsequence of callback invocations of a trace. -/
def invokesOf (tr : List TraceItem) : List TraceItem :=
  tr.filter TraceItem.isInvoke

/-- The body of the `for` loop of `CallEvent`, run over the whole vector:
for each record `e`, `if (e.address == objAddress && eventName)` the
callback is invoked with `SEvent{e.id, (uintptr_t)objAddress,
std::string(eventName)}` inside a `try`; on normal return the source logs
"Successfully called listener event.", on a `std::exception` it calls
`EventListenerError("WARNING: Listener event threw an exception.")` and
the loop continues with the next record. -/
def callLoop (env : CPtr → Nat) (cbFaults : Nat → Bool) (objAddress : Ptr)
    (eventName : CPtr) : List SListener → List TraceItem
  | [] => []
  | e :: rest =>
    (if e.address == objAddress && eventName != 0 then
      TraceItem.invoke e.fn ⟨e.id, objAddress, env eventName⟩ ::
        (if cbFaults e.fn then [TraceItem.err Diag.warnListenerThrew]
         else [TraceItem.log Diag.successfullyCalledListenerEvent])
     else []) ++ callLoop env cbFaults objAddress eventName rest

/-- The body of `CallEvent` after the `lock_guard` line: log "Calling
listener event.", then scan the whole vector (see `callLoop`). -/
def CallEventNoLock (env : CPtr → Nat) (cbFaults : Nat → Bool)
    (objAddress : Ptr) (eventName : CPtr) (events : List SListener) :
    List TraceItem :=
  TraceItem.log Diag.callingListenerEvent ::
    callLoop env cbFaults objAddress eventName events

/-- `CallEvent(void *objAddress, const char *eventName, arguments...)`.
Its first statement constructs a `lock_guard` on `g_events_mutex`; if the
calling thread already holds the mutex this blocks forever (`none`),
otherwise the body runs and the guard releases the mutex at exit. -/
def CallEvent (env : CPtr → Nat) (cbFaults : Nat → Bool) (locked : Bool)
    (objAddress : Ptr) (eventName : CPtr) (events : List SListener) :
    Option (List TraceItem) :=
  if locked then none
  else some (CallEventNoLock env cbFaults objAddress eventName events)

/-- The `for` loop of `PushEvent(const char*, Args...)`: for each record,
log "Checking listener."; `if (listener.name == eventName)` (pointer
equality of the two `const char*` values) log "Calling listener
function.", call `CallEvent(listener.address, eventName, ...)` — with the
mutex still held, hence `locked = true` — and `++count`.  `all` is the
whole vector, which `CallEvent` re-scans. -/
def pushLoop (env : CPtr → Nat) (cbFaults : Nat → Bool)
    (all : List SListener) (eventName : CPtr) :
    List SListener → Option (Nat × List TraceItem)
  | [] => some (0, [])
  | l :: rest =>
    if l.name == eventName then
      match CallEvent env cbFaults true l.address eventName all with
      | none => none
      | some tr =>
        (pushLoop env cbFaults all eventName rest).map fun r =>
          (r.1 + 1, TraceItem.log Diag.checkingListener ::
            TraceItem.log Diag.callingListenerFunction :: (tr ++ r.2))
    else
      (pushLoop env cbFaults all eventName rest).map fun r =>
        (r.1, TraceItem.log Diag.checkingListener :: r.2)

/-- `PushEvent(const char *eventName, Args... args)`: take the lock, log
"Scanning listeners.", run the scan loop (see `pushLoop`), return
`count`.  Because the loop calls `CallEvent` while the mutex is held, the
result is `none` (deadlock) as soon as one record's name pointer matches. -/
def PushEvent (env : CPtr → Nat) (cbFaults : Nat → Bool) (locked : Bool)
    (eventName : CPtr) (events : List SListener) :
    Option (Nat × List TraceItem) :=
  if locked then none
  else
    (pushLoop env cbFaults events eventName events).map fun r =>
      (r.1, TraceItem.log Diag.scanningListeners :: r.2)

/-- The `for` loop of `PushEvent(void*, const char*, Args...)`: same as
`pushLoop` with the match condition
`listener.address == objAddress && listener.name == eventName`. -/
def pushLoopScoped (env : CPtr → Nat) (cbFaults : Nat → Bool)
    (all : List SListener) (objAddress : Ptr) (eventName : CPtr) :
    List SListener → Option (Nat × List TraceItem)
  | [] => some (0, [])
  | l :: rest =>
    if l.address == objAddress && l.name == eventName then
      match CallEvent env cbFaults true l.address eventName all with
      | none => none
      | some tr =>
        (pushLoopScoped env cbFaults all objAddress eventName rest).map fun r =>
          (r.1 + 1, TraceItem.log Diag.checkingListener ::
            TraceItem.log Diag.callingListenerFunction :: (tr ++ r.2))
    else
      (pushLoopScoped env cbFaults all objAddress eventName rest).map fun r =>
        (r.1, TraceItem.log Diag.checkingListener :: r.2)

/-- `PushEvent(void *objAddress, const char *eventName, Args... args)`:
the owner-scoped push overload. -/
def PushEventScoped (env : CPtr → Nat) (cbFaults : Nat → Bool)
    (locked : Bool) (objAddress : Ptr) (eventName : CPtr)
    (events : List SListener) : Option (Nat × List TraceItem) :=
  if locked then none
  else
    (pushLoopScoped env cbFaults events objAddress eventName events).map fun r =>
      (r.1, TraceItem.log Diag.scanningListeners :: r.2)

/-- The `for` loop of `PushEvent(const char*, ...)` with the re-entrant
mutex acquisition inside `CallEvent` elided (as if the mutex were
reentrant): this exposes the dispatch logic that runs after the locking
bug, used to analyse which callbacks the scan would invoke.  Identical to
`pushLoop` except that the inner call is `CallEventNoLock`. -/
def pushLoopNoLock (env : CPtr → Nat) (cbFaults : Nat → Bool)
    (all : List SListener) (eventName : CPtr) :
    List SListener → Nat × List TraceItem
  | [] => (0, [])
  | l :: rest =>
    if l.name == eventName then
      ((pushLoopNoLock env cbFaults all eventName rest).1 + 1,
        TraceItem.log Diag.checkingListener ::
        TraceItem.log Diag.callingListenerFunction ::
        (CallEventNoLock env cbFaults l.address eventName all ++
          (pushLoopNoLock env cbFaults all eventName rest).2))
    else ((pushLoopNoLock env cbFaults all eventName rest).1,
      TraceItem.log Diag.checkingListener ::
        (pushLoopNoLock env cbFaults all eventName rest).2)

/-- `PushEvent(const char*, ...)` with the mutex elided (see
`pushLoopNoLock`): returns the count and the trace of the scan. -/
def PushEventNoLock (env : CPtr → Nat) (cbFaults : Nat → Bool)
    (eventName : CPtr) (events : List SListener) : Nat × List TraceItem :=
  ((pushLoopNoLock env cbFaults events eventName events).1,
    TraceItem.log Diag.scanningListeners ::
      (pushLoopNoLock env cbFaults events eventName events).2)

/-- The loop of `PushEvent(void*, const char*, ...)` with the mutex
elided, matching on `address && name`. -/
def pushLoopScopedNoLock (env : CPtr → Nat) (cbFaults : Nat → Bool)
    (all : List SListener) (objAddress : Ptr) (eventName : CPtr) :
    List SListener → Nat × List TraceItem
  | [] => (0, [])
  | l :: rest =>
    if l.address == objAddress && l.name == eventName then
      ((pushLoopScopedNoLock env cbFaults all objAddress eventName rest).1 + 1,
        TraceItem.log Diag.checkingListener ::
        TraceItem.log Diag.callingListenerFunction ::
        (CallEventNoLock env cbFaults l.address eventName all ++
          (pushLoopScopedNoLock env cbFaults all objAddress eventName rest).2))
    else ((pushLoopScopedNoLock env cbFaults all objAddress eventName rest).1,
      TraceItem.log Diag.checkingListener ::
        (pushLoopScopedNoLock env cbFaults all objAddress eventName rest).2)

/-- `PushEvent(void*, const char*, ...)` with the mutex elided. -/
def PushEventScopedNoLock (env : CPtr → Nat) (cbFaults : Nat → Bool)
    (objAddress : Ptr) (eventName : CPtr) (events : List SListener) :
    Nat × List TraceItem :=
  ((pushLoopScopedNoLock env cbFaults events objAddress eventName events).1,
    TraceItem.log Diag.scanningListeners ::
      (pushLoopScopedNoLock env cbFaults events objAddress eventName events).2)

/-- `std::remove_if` on the vector, as the canonical copy-forward
implementation of libstdc++/libc++ leaves it: the kept (predicate-false)
elements are compacted to the front in order, and the slots from the
returned iterator to `end()` keep their original values (for the
trivially copyable `SListener`, moves are copies and the tail slots are
never written).  Crucially, the source never calls `g_events.erase`, so
this is the **final** state of the vector after every deletion variant:
the vector keeps its full length. -/
def cppRemoveIf (p : SListener → Bool) (v : List SListener) : List SListener :=
  (v.filter fun x => !(p x)) ++ v.drop (v.filter fun x => !(p x)).length

/-- `DeleteEventListener(int id)`: take the lock, run `std::remove_if`
with the predicate `listener.id == id`, which does `++count` before each
`return true` — so `count` ends up the number of records whose id
matches (the predicate is applied once, in order, to every element).
The computed iterator `it` is never used: no `erase` follows, so the
vector is only `remove_if`-shuffled, never shortened. -/
def DeleteEventListener (locked : Bool) (id : Nat)
    (events : List SListener) : Option (Nat × List SListener) :=
  if locked then none
  else some ((events.filter fun l => l.id == id).length,
    cppRemoveIf (fun l => l.id == id) events)

/-- `DeleteEventListeners(void *objAddress)`: take the lock, run
`std::remove_if` with the predicate `listener.address == objAddress`.
In this overload the `++count` statement comes **after** `return true`
inside the lambda and is therefore unreachable: the returned count is
always 0.  As in the by-id variant, no `erase` follows. -/
def DeleteEventListenersByOwner (locked : Bool) (objAddress : Ptr)
    (events : List SListener) : Option (Nat × List SListener) :=
  if locked then none
  else some (0, cppRemoveIf (fun l => l.address == objAddress) events)

/-- `DeleteEventListeners(const char *eventName)`: take the lock, run
`std::remove_if` with the predicate `listener.name == eventName`
(pointer equality).  As in the by-owner overload, `++count` is dead code
after `return true`, so the returned count is always 0, and no `erase`
follows. -/
def DeleteEventListenersByName (locked : Bool) (eventName : CPtr)
    (events : List SListener) : Option (Nat × List SListener) :=
  if locked then none
  else some (0, cppRemoveIf (fun l => l.name == eventName) events)

/-- The registry state relevant to registration: the vector `g_events`
and, because `CreateEventListener` is a template whose local
`static int id = 0;` is instantiated **once per distinct callback
argument shape**, one id counter per instantiation.  `counters s` is the
next id of the instantiation for shape `s` (shapes are numbered
arbitrarily). -/
structure RegState where
  events : List SListener
  counters : Nat → Nat

/-- The body of `CreateEventListener<arguments...>` after the lock: read
the instantiation's `static int id`, push `SListener{id++, objAddress,
eventName, (void**)pfn}` onto `g_events`, and bump that instantiation's
counter. -/
def createStep (shape : Nat) (objAddress : Ptr) (eventName : CPtr)
    (pfn : Nat) (st : RegState) : RegState :=
  { events := st.events ++ [⟨st.counters shape, objAddress, eventName, pfn⟩],
    counters := fun s => if s = shape then st.counters shape + 1 else st.counters s }

/-- `void CreateEventListener(void*, const char*, EventFunction<arguments...>*)`:
takes the lock, appends the new record (see `createStep`) and returns
**void** — the return value to the caller is `()`; the assigned id is not
communicated. -/
def CreateEventListener (locked : Bool) (shape : Nat) (objAddress : Ptr)
    (eventName : CPtr) (pfn : Nat) (st : RegState) :
    Option (Unit × RegState) :=
  if locked then none else some ((), createStep shape objAddress eventName pfn st)

/-- The trace of a push scan that finds no match: the "Scanning
listeners." log followed by one "Checking listener." log per record. -/
def scanOnlyTrace (events : List SListener) : List TraceItem :=
  TraceItem.log Diag.scanningListeners ::
    events.map fun _ => TraceItem.log Diag.checkingListener

/-- The scan loop of the ownerless `PushEvent` either hits a name-pointer
match — and then deadlocks, because it calls `CallEvent` with the mutex
held — or traverses the whole vector producing only "Checking listener."
logs and count 0. -/
theorem pushLoop_eq (env : CPtr → Nat) (cb : Nat → Bool)
    (all : List SListener) (n : CPtr) (ls : List SListener) :
    pushLoop env cb all n ls =
      if ls.any (fun l => l.name == n) then none
      else some (0, ls.map fun _ => TraceItem.log Diag.checkingListener) := by
  induction ls with
  | nil => rfl
  | cons l rest ih =>
    by_cases h : (l.name == n) = true
    · simp [pushLoop, h, CallEvent]
    · by_cases h2 : (rest.any fun l => l.name == n) = true
      · simp [pushLoop, h, ih, h2]
      · simp [pushLoop, h, ih, h2]

/-- The scan loop of the owner-scoped `PushEvent` behaves like
`pushLoop_eq`, with the owner-and-name match condition. -/
theorem pushLoopScoped_eq (env : CPtr → Nat) (cb : Nat → Bool)
    (all : List SListener) (o : Ptr) (n : CPtr) (ls : List SListener) :
    pushLoopScoped env cb all o n ls =
      if ls.any (fun l => l.address == o && l.name == n) then none
      else some (0, ls.map fun _ => TraceItem.log Diag.checkingListener) := by
  induction ls with
  | nil => rfl
  | cons l rest ih =>
    by_cases h : (l.address == o && l.name == n) = true
    · simp [pushLoopScoped, h, CallEvent]
    · by_cases h2 : (rest.any fun l => l.address == o && l.name == n) = true
      · simp [pushLoopScoped, h, ih, h2]
      · simp [pushLoopScoped, h, ih, h2]

/-- The ownerless `PushEvent`, entered with the lock free, deadlocks as
soon as any record's name pointer matches, and otherwise returns 0 after
a scan that invokes nothing. -/
theorem PushEvent_eq (env : CPtr → Nat) (cb : Nat → Bool) (n : CPtr)
    (es : List SListener) :
    PushEvent env cb false n es =
      if es.any (fun l => l.name == n) then none
      else some (0, scanOnlyTrace es) := by
  by_cases h : (es.any fun l => l.name == n) = true
  · simp [PushEvent, pushLoop_eq, h]
  · simp [PushEvent, pushLoop_eq, h, scanOnlyTrace]

/-- The owner-scoped `PushEvent`, entered with the lock free, deadlocks
as soon as any record matches on owner and name, and otherwise returns 0
after a scan that invokes nothing. -/
theorem PushEventScoped_eq (env : CPtr → Nat) (cb : Nat → Bool) (o : Ptr)
    (n : CPtr) (es : List SListener) :
    PushEventScoped env cb false o n es =
      if es.any (fun l => l.address == o && l.name == n) then none
      else some (0, scanOnlyTrace es) := by
  by_cases h : (es.any fun l => l.address == o && l.name == n) = true
  · simp [PushEventScoped, pushLoopScoped_eq, h]
  · simp [PushEventScoped, pushLoopScoped_eq, h, scanOnlyTrace]

/-- A `remove_if` pass whose predicate holds nowhere leaves the vector
unchanged. -/
theorem cppRemoveIf_eq_self (p : SListener → Bool) (es : List SListener)
    (h : ∀ l ∈ es, p l = false) : cppRemoveIf p es = es := by
  have hf : (es.filter fun x => !(p x)) = es := by
    apply List.filter_eq_self.mpr
    intro a ha
    simp [h a ha]
  simp [cppRemoveIf, hf, List.drop_length]

/-- Every callback invocation performed by the scan of `CallEvent` comes
from a record whose owner address equals the scan's `objAddress`, needs a
non-null name pointer, and receives exactly
`SEvent{record.id, objAddress, std::string(eventName)}`. -/
theorem mem_callLoop (env : CPtr → Nat) (cb : Nat → Bool) (a : Ptr)
    (n : CPtr) (ls : List SListener) (f : Nat) (ev : SEvent)
    (h : TraceItem.invoke f ev ∈ callLoop env cb a n ls) :
    n ≠ 0 ∧ ∃ l ∈ ls, l.address = a ∧ f = l.fn ∧ ev = ⟨l.id, a, env n⟩ := by
  induction ls with
  | nil => simp [callLoop] at h
  | cons e rest ih =>
    rw [callLoop] at h
    rcases List.mem_append.mp h with h1 | h2
    · by_cases hc : (e.address == a && n != 0) = true
      · rw [if_pos hc] at h1
        simp only [Bool.and_eq_true, beq_iff_eq, bne_iff_ne] at hc
        rcases List.mem_cons.mp h1 with heq | htail
        · rcases TraceItem.invoke.inj heq with ⟨hf, hev⟩
          exact ⟨hc.2, e, List.mem_cons_self e rest, hc.1, hf, hev⟩
        · by_cases hb : cb e.fn = true <;> simp [hb] at htail
      · rw [if_neg hc] at h1
        simp at h1
    · obtain ⟨hn, l, hl, rest'⟩ := ih h2
      exact ⟨hn, l, List.mem_cons_of_mem e hl, rest'⟩

/-- Every callback invocation performed by the (lock-elided) ownerless
push comes from an inner `CallEvent` scan triggered by some record whose
name pointer equals the pushed pointer. -/
theorem mem_pushLoopNoLock (env : CPtr → Nat) (cb : Nat → Bool)
    (all : List SListener) (n : CPtr) (ls : List SListener) (f : Nat)
    (ev : SEvent)
    (h : TraceItem.invoke f ev ∈ (pushLoopNoLock env cb all n ls).2) :
    ∃ m ∈ ls, m.name = n ∧
      TraceItem.invoke f ev ∈ callLoop env cb m.address n all := by
  induction ls with
  | nil => simp [pushLoopNoLock] at h
  | cons l rest ih =>
    rw [pushLoopNoLock] at h
    by_cases hc : (l.name == n) = true
    · rw [if_pos hc] at h
      simp only [List.mem_cons, CallEventNoLock, List.mem_append] at h
      rcases h with h1 | h1 | (h1 | h1) | h1
      · exact absurd h1 (by simp)
      · exact absurd h1 (by simp)
      · exact absurd h1 (by simp)
      · exact ⟨l, List.mem_cons_self l rest, by simpa using hc, h1⟩
      · obtain ⟨m, hm, hmn, hmem⟩ := ih h1
        exact ⟨m, List.mem_cons_of_mem l hm, hmn, hmem⟩
    · rw [if_neg hc] at h
      rcases List.mem_cons.mp h with h1 | h1
      · exact absurd h1 (by simp)
      · obtain ⟨m, hm, hmn, hmem⟩ := ih h1
        exact ⟨m, List.mem_cons_of_mem l hm, hmn, hmem⟩

/-- Which callbacks the scan of `CallEvent` invokes, with which `SEvent`
values and in which order, does not depend on which callbacks throw: the
`try`/`catch` confines a throw to the one invocation. -/
theorem invokesOf_callLoop (env : CPtr → Nat) (cb cb' : Nat → Bool)
    (a : Ptr) (n : CPtr) (ls : List SListener) :
    invokesOf (callLoop env cb a n ls) = invokesOf (callLoop env cb' a n ls) := by
  induction ls with
  | nil => rfl
  | cons e rest ih =>
    simp only [callLoop, invokesOf, List.filter_append]
    rw [show (callLoop env cb a n rest).filter TraceItem.isInvoke
          = invokesOf (callLoop env cb a n rest) from rfl,
        show (callLoop env cb' a n rest).filter TraceItem.isInvoke
          = invokesOf (callLoop env cb' a n rest) from rfl, ih]
    congr 1
    by_cases hc : (e.address == a && n != 0) = true
    · rw [if_pos hc, if_pos hc]
      by_cases h1 : cb e.fn = true <;> by_cases h2 : cb' e.fn = true <;>
        simp [h1, h2, TraceItem.isInvoke]
    · rw [if_neg hc, if_neg hc]

/-- The scan of `CallEvent` emits exactly one "WARNING: Listener event
threw an exception." diagnostic per matched record whose callback
throws. -/
theorem countErr_callLoop (env : CPtr → Nat) (cb : Nat → Bool) (a : Ptr)
    (n : CPtr) (ls : List SListener) :
    (callLoop env cb a n ls).countP TraceItem.isErr
      = (ls.filter fun l => (l.address == a && n != 0) && cb l.fn).length := by
  induction ls with
  | nil => rfl
  | cons e rest ih =>
    simp only [callLoop, List.countP_append, List.filter_cons, ih]
    by_cases hc : (e.address == a && n != 0) = true
    · by_cases hb : cb e.fn = true <;>
        simp [hc, hb, List.countP_cons, TraceItem.isErr, Nat.add_comm]
    · simp [hc]

/-- The count an (lock-elided) ownerless push returns is the number of
records whose name pointer equals the pushed pointer, independent of the
callbacks' behaviour. -/
theorem fst_pushLoopNoLock (env : CPtr → Nat) (cb : Nat → Bool)
    (all : List SListener) (n : CPtr) (ls : List SListener) :
    (pushLoopNoLock env cb all n ls).1
      = (ls.filter fun l => l.name == n).length := by
  induction ls with
  | nil => rfl
  | cons l rest ih =>
    rw [pushLoopNoLock]
    by_cases hc : (l.name == n) = true
    · simp [hc, List.filter_cons, ih]
    · simp [hc, List.filter_cons, ih]

/-- Which callbacks an (lock-elided) ownerless push invokes, with which
`SEvent` values and in which order, does not depend on which callbacks
throw. -/
theorem invokesOf_pushLoopNoLock (env : CPtr → Nat) (cb cb' : Nat → Bool)
    (all all' : List SListener) (n : CPtr) (ls : List SListener)
    (hall : ∀ a, invokesOf (callLoop env cb a n all)
      = invokesOf (callLoop env cb' a n all')) :
    invokesOf (pushLoopNoLock env cb all n ls).2
      = invokesOf (pushLoopNoLock env cb' all' n ls).2 := by
  induction ls with
  | nil => rfl
  | cons l rest ih =>
    rw [pushLoopNoLock, pushLoopNoLock]
    have hce : (callLoop env cb l.address n all).filter TraceItem.isInvoke
        = (callLoop env cb' l.address n all').filter TraceItem.isInvoke :=
      hall l.address
    have hih : ((pushLoopNoLock env cb all n rest).2).filter TraceItem.isInvoke
        = ((pushLoopNoLock env cb' all' n rest).2).filter TraceItem.isInvoke := ih
    by_cases hc : (l.name == n) = true
    · simp [hc, invokesOf, List.filter_cons, List.filter_append,
        CallEventNoLock, TraceItem.isInvoke, hce, hih]
    · simp [hc, invokesOf, List.filter_cons, TraceItem.isInvoke, hih]

/-- Claim C1: refuted — the ownerless `PushEvent` does not invoke exactly
the name-matching listeners once each.  On the two-listener store
`[{id 0, owner 5, name-ptr 10, fn 100}, {id 1, owner 5, name-ptr 11, fn 101}]`
(pointer 10 holds contents 100, pointer 11 holds contents 200),
`PushEvent(10)`: (a) called with the mutex free it deadlocks (`none`),
because the scan calls `CallEvent` with the mutex still held; (b) even
with the re-entrant acquisition elided it returns count 1 yet invokes
both callbacks — including fn 101, registered under the *different* name
pointer 11 — because `CallEvent` matches by owner address only. -/
theorem c1_ownerless_push_diverges :
    PushEvent (fun p => if p = 10 then 100 else 200) (fun _ => false) false 10
      ([⟨0, 5, 10, 100⟩, ⟨1, 5, 11, 101⟩] : List SListener) = none
  ∧ (PushEventNoLock (fun p => if p = 10 then 100 else 200) (fun _ => false) 10
      ([⟨0, 5, 10, 100⟩, ⟨1, 5, 11, 101⟩] : List SListener)).1 = 1
  ∧ invokesOf (PushEventNoLock (fun p => if p = 10 then 100 else 200)
      (fun _ => false) 10
      ([⟨0, 5, 10, 100⟩, ⟨1, 5, 11, 101⟩] : List SListener)).2
    = [TraceItem.invoke 100 ⟨0, 5, 100⟩, TraceItem.invoke 101 ⟨1, 5, 100⟩] :=
  ⟨rfl, rfl, rfl⟩

/-- Claim C2: refuted — the owner-scoped `PushEvent` invokes listeners
with the right owner but the wrong name.  Store: listener A
`{id 0, owner 1, name-ptr 10, fn 100}` and listener C
`{id 1, owner 1, name-ptr 11, fn 102}` (owner P = 1, name X = pointer
10, name Y = pointer 11).  `PushEvent(P, X)`: (a) deadlocks when run
with the real mutex; (b) lock-elided, it returns count 1 yet invokes
both fn 100 and fn 102 — listener C has owner P but name Y, and still
fires, because the inner `CallEvent` rescans the store by owner only. -/
theorem c2_scoped_push_diverges :
    PushEventScoped (fun p => if p = 10 then 100 else 200) (fun _ => false)
      false 1 10 ([⟨0, 1, 10, 100⟩, ⟨1, 1, 11, 102⟩] : List SListener) = none
  ∧ (PushEventScopedNoLock (fun p => if p = 10 then 100 else 200)
      (fun _ => false) 1 10
      ([⟨0, 1, 10, 100⟩, ⟨1, 1, 11, 102⟩] : List SListener)).1 = 1
  ∧ invokesOf (PushEventScopedNoLock (fun p => if p = 10 then 100 else 200)
      (fun _ => false) 1 10
      ([⟨0, 1, 10, 100⟩, ⟨1, 1, 11, 102⟩] : List SListener)).2
    = [TraceItem.invoke 100 ⟨0, 1, 100⟩, TraceItem.invoke 102 ⟨1, 1, 100⟩] :=
  ⟨rfl, rfl, rfl⟩

/-- Claim C3: refuted — `DeleteEventListener` never erases anything: the
source computes `std::remove_if` but never calls `g_events.erase`.  On
the one-record store, deleting id 0 returns 1 yet leaves the store
identical, so an immediately repeated call returns 1 again (the claim
says 0).  On a three-record store, deleting id 1 returns 1 and leaves a
store of the same length in which the record of id 2 is duplicated. -/
theorem c3_delete_by_id_diverges :
    DeleteEventListener false 0 ([⟨0, 5, 10, 100⟩] : List SListener)
      = some (1, [⟨0, 5, 10, 100⟩])
  ∧ DeleteEventListener false 1
      ([⟨0, 5, 10, 100⟩, ⟨1, 6, 11, 101⟩, ⟨2, 7, 12, 102⟩] : List SListener)
      = some (1, [⟨0, 5, 10, 100⟩, ⟨2, 7, 12, 102⟩, ⟨2, 7, 12, 102⟩]) :=
  ⟨rfl, rfl⟩

/-- Claim C4: refuted — both `DeleteEventListeners` overloads return 0
regardless of matches (their `++count` is dead code after `return true`)
and remove nothing (no `erase` after `remove_if`).  On a one-record
store whose single record matches, each overload returns count 0 and
leaves the store unchanged, where the claim requires count 1 and an
empty store. -/
theorem c4_delete_by_owner_name_diverges :
    DeleteEventListenersByOwner false 5 ([⟨0, 5, 10, 100⟩] : List SListener)
      = some (0, [⟨0, 5, 10, 100⟩])
  ∧ DeleteEventListenersByName false 10 ([⟨0, 5, 10, 100⟩] : List SListener)
      = some (0, [⟨0, 5, 10, 100⟩]) :=
  ⟨rfl, rfl⟩

/-- Claim C5: refuted — ids are not process-wide unique: the template
`CreateEventListener` has one `static int id` per callback-shape
instantiation, so from a fresh process two registrations made through
different instantiations (shape 0 then shape 1) both receive id 0, and
`DeleteEventListener(0)` then reports 2 matches for the single handle
(and, per the missing `erase`, removes neither). -/
theorem c5_ids_collide_across_instantiations :
    ((createStep 1 4 11 101 (createStep 0 3 10 100 ⟨[], fun _ => 0⟩)).events.map
      fun l => l.id) = [0, 0]
  ∧ DeleteEventListener false 0
      (createStep 1 4 11 101 (createStep 0 3 10 100 ⟨[], fun _ => 0⟩)).events
      = some (2, [⟨0, 3, 10, 100⟩, ⟨0, 4, 11, 101⟩]) :=
  ⟨rfl, rfl⟩

/-- Claim C6: a runtime fault in one invoked callback is confined to that
invocation: the sequence of callback invocations (and the `SEvent` each
receives) is identical to the fault-free run, exactly one warning is
emitted on the diagnostic channel per faulting matched invocation, the
push count equals the number of name-pointer matches independent of any
faults (so it still counts the faulting listener), and no fault
propagates (the dispatch functions are total).  Proved over the dispatch
semantics with the re-entrant mutex acquisition elided; the locking
defect itself is settled under claim C10. -/
theorem c6_fault_isolated_per_listener (env : CPtr → Nat) (cb : Nat → Bool)
    (a : Ptr) (n : CPtr) (nm : CPtr) (es : List SListener) :
    invokesOf (CallEventNoLock env cb a n es)
      = invokesOf (CallEventNoLock env (fun _ => false) a n es)
  ∧ (CallEventNoLock env cb a n es).countP TraceItem.isErr
      = (es.filter fun l => (l.address == a && n != 0) && cb l.fn).length
  ∧ (PushEventNoLock env cb nm es).1
      = (es.filter fun l => l.name == nm).length
  ∧ invokesOf (PushEventNoLock env cb nm es).2
      = invokesOf (PushEventNoLock env (fun _ => false) nm es).2 := by
  refine ⟨?_, ?_, ?_, ?_⟩
  · simpa [CallEventNoLock, invokesOf, TraceItem.isInvoke] using
      invokesOf_callLoop env cb (fun _ => false) a n es
  · simp [CallEventNoLock, List.countP_cons, TraceItem.isErr, countErr_callLoop]
  · simpa [PushEventNoLock] using fst_pushLoopNoLock env cb es nm es
  · simpa [PushEventNoLock, invokesOf, TraceItem.isInvoke] using
      invokesOf_pushLoopNoLock env cb (fun _ => false) es es nm es
        (fun a' => invokesOf_callLoop env cb (fun _ => false) a' nm es)

/-- Claim C7: counterexample — `CreateEventListener` returns `void`, so
the caller receives the same (empty) value whether the assigned id is 0
or 7: the assigned id is not returned.  Two registrations from states
whose shape-0 counter is 0 resp. 7 assign different ids to the new
record, yet the values returned to the caller coincide. -/
theorem c7_no_id_returned_cex :
    (CreateEventListener false 0 1 10 100 ⟨[], fun _ => 0⟩).map Prod.fst
      = (CreateEventListener false 0 1 10 100 ⟨[], fun _ => 7⟩).map Prod.fst
  ∧ ((CreateEventListener false 0 1 10 100 ⟨[], fun _ => 0⟩).map
      fun r => r.2.events.map fun l => l.id) = some [0]
  ∧ ((CreateEventListener false 0 1 10 100 ⟨[], fun _ => 7⟩).map
      fun r => r.2.events.map fun l => l.id) = some [7] :=
  ⟨rfl, rfl, rfl⟩

/-- Claim C7 (amended): registration constructs the new record with the
next sequential id of its callback-shape instantiation, appends it to
the store and bumps that instantiation's counter — but returns `void`;
the assigned id is not communicated to the caller. -/
theorem c7_register_amended (shape : Nat) (a : Ptr) (n : CPtr) (f : Nat)
    (st : RegState) :
    ∃ st' : RegState,
      CreateEventListener false shape a n f st = some ((), st')
      ∧ st'.events = st.events ++ [⟨st.counters shape, a, n, f⟩]
      ∧ st'.counters shape = st.counters shape + 1 :=
  ⟨createStep shape a n f st, rfl, rfl, by simp [createStep]⟩

/-- Claim C8: counterexample — during an ownerless push the event-context
`owner` field is not the global sentinel: on the store holding one
listener `{id 0, owner 7, name-ptr 10, fn 100}`, the (lock-elided)
ownerless `PushEvent(10)` performs exactly one invocation, and the
context it passes carries owner address 7 — the matched listener's own
address, not the no-owner sentinel 0. -/
theorem c8_owner_field_cex :
    invokesOf (PushEventNoLock (fun p => if p = 10 then 100 else 200)
      (fun _ => false) 10 ([⟨0, 7, 10, 100⟩] : List SListener)).2
      = [TraceItem.invoke 100 ⟨0, 7, 100⟩]
  ∧ (7 : Ptr) ≠ 0 :=
  ⟨rfl, by decide⟩

/-- Claim C8 (amended): every invocation performed by the (lock-elided)
ownerless push passes a context whose `id` is the invoked listener's id
and whose `name` is the contents of the pushed name pointer, but whose
`owner`/address field is the owner address of the *name-matched listener
that triggered the inner `CallEvent` scan* — the global sentinel appears
only if that listener was itself registered ownerless. -/
theorem c8_context_fields_amended (env : CPtr → Nat) (cb : Nat → Bool)
    (nm : CPtr) (es : List SListener) (f : Nat) (ev : SEvent)
    (h : TraceItem.invoke f ev ∈ (PushEventNoLock env cb nm es).2) :
    nm ≠ 0 ∧ ∃ m ∈ es, m.name = nm ∧ ∃ l ∈ es,
      l.address = m.address ∧ f = l.fn ∧ ev = ⟨l.id, m.address, env nm⟩ := by
  have h' : TraceItem.invoke f ev ∈ (pushLoopNoLock env cb es nm es).2 := by
    simp only [PushEventNoLock] at h
    rcases List.mem_cons.mp h with h1 | h1
    · exact absurd h1 (by simp)
    · exact h1
  obtain ⟨m, hm, hmn, hmem⟩ := mem_pushLoopNoLock env cb es nm es f ev h'
  obtain ⟨hn, l, hl, hla, hf, hev⟩ := mem_callLoop env cb m.address nm es f ev hmem
  exact ⟨hn, m, hm, hmn, l, hl, hla, hf, hev⟩

/-- Witness for claim C8 (amended) at the store of `c8_owner_field_cex`:
the single invocation's context is explained by the matched listener. -/
theorem c8_context_fields_amended_witness :
    (10 : CPtr) ≠ 0 ∧ ∃ m ∈ ([⟨0, 7, 10, 100⟩] : List SListener), m.name = 10
      ∧ ∃ l ∈ ([⟨0, 7, 10, 100⟩] : List SListener),
        l.address = m.address ∧ 100 = l.fn
        ∧ (⟨0, 7, 100⟩ : SEvent) = ⟨l.id, m.address,
            (fun p => if p = 10 then 100 else 200) 10⟩ :=
  c8_context_fields_amended (fun p => if p = 10 then 100 else 200)
    (fun _ => false) 10 ([⟨0, 7, 10, 100⟩] : List SListener) 100
    ⟨0, 7, 100⟩ (by decide)

/-- Claim C9: name matching is pointer identity everywhere.  If every
stored record carries name pointer `p`, then any push (ownerless or
owner-scoped) and any by-name deletion called with a different pointer
`q` matches no listener — even when the two pointers' character
contents are identical — returning 0, invoking nothing (the trace is
the bare scan) and removing nothing. -/
theorem c9_pointer_identity_matching (env : CPtr → Nat) (cb : Nat → Bool)
    (p q : CPtr) (owner : Ptr) (es : List SListener)
    (hpq : p ≠ q) (_hcontents : env p = env q)
    (hnames : ∀ l ∈ es, l.name = p) :
    PushEvent env cb false q es = some (0, scanOnlyTrace es)
  ∧ PushEventScoped env cb false owner q es = some (0, scanOnlyTrace es)
  ∧ DeleteEventListenersByName false q es = some (0, es) := by
  have hno : ∀ l ∈ es, (l.name == q) = false := by
    intro l hl
    rw [hnames l hl]
    exact beq_eq_false_iff_ne.mpr hpq
  have hany : (es.any fun l => l.name == q) = false := by
    rw [List.any_eq_false]
    intro l hl
    simp [hno l hl]
  have hany2 : (es.any fun l => l.address == owner && l.name == q) = false := by
    rw [List.any_eq_false]
    intro l hl
    simp [hno l hl]
  refine ⟨?_, ?_, ?_⟩
  · simp [PushEvent_eq, hany]
  · simp [PushEventScoped_eq, hany2]
  · simp [DeleteEventListenersByName, cppRemoveIf_eq_self _ _ hno]

/-- Witness for claim C9: pointers 1 and 2 both holding contents 5; the
store has one listener under pointer 1; pushing or deleting by pointer 2
matches nothing. -/
theorem c9_pointer_identity_matching_witness :
    (1 : CPtr) ≠ 2
  ∧ (fun _ : CPtr => (5 : Nat)) 1 = (fun _ : CPtr => (5 : Nat)) 2
  ∧ (PushEvent (fun _ : CPtr => (5 : Nat)) (fun _ => false) false 2
        ([⟨0, 3, 1, 100⟩] : List SListener)
      = some (0, scanOnlyTrace ([⟨0, 3, 1, 100⟩] : List SListener))
    ∧ PushEventScoped (fun _ : CPtr => (5 : Nat)) (fun _ => false) false 3 2
        ([⟨0, 3, 1, 100⟩] : List SListener)
      = some (0, scanOnlyTrace ([⟨0, 3, 1, 100⟩] : List SListener))
    ∧ DeleteEventListenersByName false 2 ([⟨0, 3, 1, 100⟩] : List SListener)
      = some (0, [⟨0, 3, 1, 100⟩])) :=
  ⟨by decide, rfl,
    c9_pointer_identity_matching (fun _ => 5) (fun _ => false) 1 2 3
      ([⟨0, 3, 1, 100⟩] : List SListener) (by decide) rfl (by decide)⟩

/-- Claim C10: counterexample — a public operation that does not release
the lock on all exit paths, and a deadlock with no re-entrant callback:
the ownerless `PushEvent`, entered with the mutex free on a store whose
single record matches, never returns (`none`): the scan calls
`CallEvent`, which re-acquires the held non-reentrant mutex before any
callback could run. -/
theorem c10_push_never_returns_cex :
    PushEvent (fun _ => 0) (fun _ => false) false 10
      ([⟨0, 5, 10, 100⟩] : List SListener) = none :=
  rfl

/-- Claim C10 (amended): registration, the three deletion variants and
`CallEvent` each acquire the single non-reentrant registry lock once and
run to completion (releasing it on exit) when called with the lock free,
and *every* registry operation entered while the lock is already held
deadlocks — so a callback re-entering the registry would deadlock; but
the two push variants call `CallEvent` while still holding the lock, so
a push deadlocks before invoking any callback as soon as one record
matches, and only a zero-match push completes (returning 0 after a scan
that invokes nothing). -/
theorem c10_lock_discipline_amended :
    (∀ sh a n f st, CreateEventListener true sh a n f st = none)
  ∧ (∀ i es, DeleteEventListener true i es = none)
  ∧ (∀ a es, DeleteEventListenersByOwner true a es = none)
  ∧ (∀ n es, DeleteEventListenersByName true n es = none)
  ∧ (∀ env cb a n es, CallEvent env cb true a n es = none)
  ∧ (∀ env cb n es, PushEvent env cb true n es = none)
  ∧ (∀ env cb o n es, PushEventScoped env cb true o n es = none)
  ∧ (∀ sh a n f st, CreateEventListener false sh a n f st
      = some ((), createStep sh a n f st))
  ∧ (∀ i es, ∃ r, DeleteEventListener false i es = some r)
  ∧ (∀ a es, ∃ r, DeleteEventListenersByOwner false a es = some r)
  ∧ (∀ n es, ∃ r, DeleteEventListenersByName false n es = some r)
  ∧ (∀ env cb a n es, ∃ tr, CallEvent env cb false a n es = some tr)
  ∧ (∀ env cb n es, PushEvent env cb false n es
      = if es.any (fun l => l.name == n) then none
        else some (0, scanOnlyTrace es))
  ∧ (∀ env cb o n es, PushEventScoped env cb false o n es
      = if es.any (fun l => l.address == o && l.name == n) then none
        else some (0, scanOnlyTrace es)) :=
  ⟨fun _ _ _ _ _ => rfl, fun _ _ => rfl, fun _ _ => rfl, fun _ _ => rfl,
    fun _ _ _ _ _ => rfl, fun _ _ _ _ => rfl, fun _ _ _ _ _ => rfl,
    fun _ _ _ _ _ => rfl,
    fun _ _ => ⟨_, rfl⟩, fun _ _ => ⟨_, rfl⟩, fun _ _ => ⟨_, rfl⟩,
    fun _ _ _ _ _ => ⟨_, rfl⟩,
    fun env cb n es => PushEvent_eq env cb n es,
    fun env cb o n es => PushEventScoped_eq env cb o n es⟩

end EventListener
